import Mathlib

/-!
Verification of `solve_stickers_layout` (src/main.py).

The program builds a CP-SAT model:
  variables (for `k < max_layouts`, `i < N`):
    `x[k] ∈ [0, max_x_bound]`     prints of layout k,
    `z[k] ∈ Bool`                 layout k used,
    `y[k,i] ∈ [0, layout_capacity]` copies of sticker i per page of layout k,
    `w[k,i] ∈ [0, max_x_bound * layout_capacity]` total copies of sticker i from layout k;
  constraints:
    `w[k,i] = x[k] * y[k,i]`,
    `sum_i y[k,i] ≤ layout_capacity` when `z[k]`, `sum_i y[k,i] = 0` when `¬ z[k]`,
    `sum_k w[k,i] ≥ demand[i]`, `sum_k z[k] ≤ max_layouts`, `sum_k y[k,i] ≥ 1`;
  objective: minimize `sum_k x[k]`;
and then normalizes the solver's assignment into a report.

We embed the constraint set as a satisfaction predicate `Sat` on assignments,
the objective as `objective`, optimal returns as `IsOptimal`, and the result
normalization (lines 89-128 of src/main.py) as the pure function `normalize`.
A solver return with status OPTIMAL is modelled as an `IsOptimal` assignment,
and one with status FEASIBLE as any `Sat` assignment (the solver contract only
guarantees the assignment meets every declared constraint).
Sticker names are the `Nat`-valued identifiers the program's example uses.
-/

namespace StickersLayout

/-- The inputs of `solve_stickers_layout`: the `(sticker_name, demand)` list and
the sizing parameters.  The code performs no validation on any of them. -/
structure Params where
  stickers : List (Nat × Int)
  max_layouts : Nat
  layout_capacity : Nat
  max_x_bound : Nat
deriving DecidableEq

/-- `N = len(sticker_names)` (line 33). -/
def Params.N (p : Params) : Nat := p.stickers.length

/-- `sticker_names = [s[0] for s in stickers]` (line 31). -/
def Params.names (p : Params) : List Nat := p.stickers.map Prod.fst

/-- `sticker_demands = [s[1] for s in stickers]` (line 32). -/
def Params.demands (p : Params) : List Int := p.stickers.map Prod.snd

/-- `sum(f(i) for i in range(n))`. -/
def listSum (n : Nat) (f : Nat → Nat) : Nat := ((List.range n).map f).sum

/-- A full assignment of the model's decision variables.  Only the values at
`k < max_layouts` and `i < N` are meaningful. -/
structure Assignment where
  x : Nat → Nat
  z : Nat → Bool
  y : Nat → Nat → Nat
  w : Nat → Nat → Nat

/-- `printed = sum(w[k][i] for k in layouts)` (lines 71 and 109). -/
def printedAt (p : Params) (a : Assignment) (i : Nat) : Nat :=
  listSum p.max_layouts (fun k => a.w k i)

/-- The assignment satisfies every constraint the builder declares
(lines 42-78 of src/main.py): the variable domains, the multiplication
equalities, the two reified capacity constraints, the demand constraints,
the layout-cardinality constraint and the structural-presence constraints. -/
def Sat (p : Params) (a : Assignment) : Prop :=
  (∀ k < p.max_layouts, a.x k ≤ p.max_x_bound) ∧
  (∀ k < p.max_layouts, ∀ i < p.N, a.y k i ≤ p.layout_capacity) ∧
  (∀ k < p.max_layouts, ∀ i < p.N, a.w k i ≤ p.max_x_bound * p.layout_capacity) ∧
  (∀ k < p.max_layouts, ∀ i < p.N, a.w k i = a.x k * a.y k i) ∧
  (∀ k < p.max_layouts, a.z k = true → listSum p.N (fun i => a.y k i) ≤ p.layout_capacity) ∧
  (∀ k < p.max_layouts, a.z k = false → listSum p.N (fun i => a.y k i) = 0) ∧
  (∀ i < p.N, p.demands.getD i 0 ≤ (printedAt p a i : Int)) ∧
  listSum p.max_layouts (fun k => if a.z k then 1 else 0) ≤ p.max_layouts ∧
  (∀ i < p.N, 1 ≤ listSum p.max_layouts (fun k => a.y k i))

instance instDecidableSat (p : Params) (a : Assignment) : Decidable (Sat p a) := by
  unfold Sat
  infer_instance

/-- The objective value `sum(x[k] for k in layouts)` (line 81). -/
def objective (p : Params) (a : Assignment) : Nat := listSum p.max_layouts a.x

/-- An assignment the solver may return with status OPTIMAL: it satisfies
every constraint and attains the minimum objective value. -/
def IsOptimal (p : Params) (a : Assignment) : Prop :=
  Sat p a ∧ ∀ b, Sat p b → objective p a ≤ objective p b

/-- The CP-SAT terminal statuses relevant to the program. -/
inductive Status where
  | OPTIMAL | FEASIBLE | INFEASIBLE | MODEL_INVALID | UNKNOWN
deriving DecidableEq

/-- `solver.StatusName(status)` for each terminal status. -/
def Status.name : Status → String
  | .OPTIMAL => "OPTIMAL"
  | .FEASIBLE => "FEASIBLE"
  | .INFEASIBLE => "INFEASIBLE"
  | .MODEL_INVALID => "MODEL_INVALID"
  | .UNKNOWN => "UNKNOWN"

/-- `status in [cp_model.OPTIMAL, cp_model.FEASIBLE]` (line 89). -/
def isSuccess : Status → Bool
  | .OPTIMAL => true
  | .FEASIBLE => true
  | _ => false

/-- One record of `demand_checks` (lines 110-114). -/
structure DemandCheck where
  printed : Nat
  required : Int
  met : Bool
deriving DecidableEq

/-- Python-dict insertion into an insertion-ordered association list: an
existing key keeps its position and gets the new value, a new key is
appended at the end. -/
def dinsert {α : Type} (m : List (Nat × α)) (key : Nat) (v : α) : List (Nat × α) :=
  match m with
  | [] => [(key, v)]
  | (k1, v1) :: rest =>
      if k1 = key then (k1, v) :: rest else (k1, v1) :: dinsert rest key v

/-- Python-dict lookup in an association list. -/
def dlookup {α : Type} (key : Nat) : List (Nat × α) → Option α
  | [] => none
  | (k1, v1) :: rest => if k1 = key then some v1 else dlookup key rest

/-- A loop `for i in l: m[keyf i] = valf i` over a dict `m`. -/
def dfold {α : Type} (keyf : Nat → Nat) (valf : Nat → α)
    (m : List (Nat × α)) (l : List Nat) : List (Nat × α) :=
  l.foldl (fun m i => dinsert m (keyf i) (valf i)) m

/-- The record stored in `demand_checks[name_i]` for index `i`
(lines 107-114): `printed`, `required` and `met = (printed >= required)`. -/
def mkCheck (p : Params) (a : Assignment) (i : Nat) : DemandCheck :=
  { printed := printedAt p a i
  , required := p.demands.getD i 0
  , met := decide (p.demands.getD i 0 ≤ (printedAt p a i : Int)) }

/-- `demand_checks` (lines 105-114): a dict keyed by sticker name, filled by
the loop over all indices `i in range(N)`. -/
def demandChecks (p : Params) (a : Assignment) : List (Nat × DemandCheck) :=
  dfold (fun i => p.names.getD i 0) (mkCheck p a) [] (List.range p.N)

/-- `single_layout` for layout `k` (lines 96-101): the dict keyed by sticker
name holding each strictly positive density `y[k][i]`. -/
def singleLayout (p : Params) (a : Assignment) (k : Nat) : List (Nat × Nat) :=
  (List.range p.N).foldl
    (fun m i => if 0 < a.y k i then dinsert m (p.names.getD i 0) (a.y k i) else m) []

/-- `used_layouts = [k for k in layouts if solver.Value(z[k]) == 1]` (line 90). -/
def usedLayouts (p : Params) (a : Assignment) : List Nat :=
  (List.range p.max_layouts).filter (fun k => a.z k)

/-- `total_pages = sum(solver.Value(x[k]) for k in used_layouts)` (line 91). -/
def totalPages (p : Params) (a : Assignment) : Nat :=
  ((usedLayouts p a).map a.x).sum

/-- `layout_prints = {k: solver.Value(x[k]) for k in used_layouts}` (line 119). -/
def layoutPrints (p : Params) (a : Assignment) : List (Nat × Nat) :=
  (usedLayouts p a).map (fun k => (k, a.x k))

/-- `layout_distributions` (lines 94-102): for each used layout, its
nonzero-density sticker map. -/
def layoutDistributions (p : Params) (a : Assignment) : List (Nat × List (Nat × Nat)) :=
  (usedLayouts p a).map (fun k => (k, singleLayout p a k))

/-- The success-shaped return dict (lines 116-123). -/
structure SuccessReport where
  status : String
  used_layouts : List Nat
  layout_prints : List (Nat × Nat)
  total_pages : Nat
  layout_distributions : List (Nat × List (Nat × Nat))
  demand_checks : List (Nat × DemandCheck)
deriving DecidableEq

/-- The return value of `solve_stickers_layout`: either the success dict
(lines 116-123) or the `{status, message}` dict (lines 125-128). -/
inductive SolveResult where
  | ok : SuccessReport → SolveResult
  | noSolution : (status : String) → (message : String) → SolveResult
deriving DecidableEq

/-- Whether the result is the success-shaped dict. -/
def SolveResult.isOk : SolveResult → Bool
  | .ok _ => true
  | .noSolution _ _ => false

/-- The result normalization (lines 89-128): on OPTIMAL/FEASIBLE build the
structured report from the assignment, otherwise return only the status
name and the fixed message. -/
def normalize (p : Params) (st : Status) (a : Assignment) : SolveResult :=
  if isSuccess st then
    SolveResult.ok
      { status := st.name
      , used_layouts := usedLayouts p a
      , layout_prints := layoutPrints p a
      , total_pages := totalPages p a
      , layout_distributions := layoutDistributions p a
      , demand_checks := demandChecks p a }
  else
    SolveResult.noSolution st.name "No feasible solution found or time limit reached."

/-- Sum of the values of a density dict. -/
def valuesSum (m : List (Nat × Nat)) : Nat := (m.map Prod.snd).sum

/-! Concrete instances used to witness the claims. -/

/-- A small instance: stickers 1 (demand 2) and 2 (demand 1), up to 2 layouts
of capacity 3, print bound 100. -/
def pEx : Params := ⟨[(1, 2), (2, 1)], 2, 3, 100⟩

/-- A satisfying assignment for `pEx`: layout 0 holds one copy of each
sticker and is printed twice; layout 1 is unused. -/
def aEx : Assignment where
  x := fun k => if k = 0 then 2 else 0
  z := fun k => k == 0
  y := fun k i => if k == 0 && (i == 0 || i == 1) then 1 else 0
  w := fun k i => if k == 0 && (i == 0 || i == 1) then 2 else 0

/-! ### Helper lemmas about `listSum` -/

theorem listSum_zero (f : Nat → Nat) : listSum 0 f = 0 := rfl

theorem listSum_succ (n : Nat) (f : Nat → Nat) :
    listSum (n + 1) f = listSum n f + f n := by
  simp [listSum, List.range_succ]

theorem listSum_congr {n : Nat} {f g : Nat → Nat} (h : ∀ i < n, f i = g i) :
    listSum n f = listSum n g := by
  induction n with
  | zero => rfl
  | succ m ih =>
      rw [listSum_succ, listSum_succ, ih (fun i hi => h i (Nat.lt_succ_of_lt hi)),
        h m (Nat.lt_succ_self m)]

theorem eq_zero_of_listSum_eq_zero {n : Nat} {f : Nat → Nat} (h : listSum n f = 0) :
    ∀ i < n, f i = 0 := by
  induction n with
  | zero => intro i hi; omega
  | succ m ih =>
      rw [listSum_succ] at h
      intro i hi
      rcases Nat.lt_succ_iff_lt_or_eq.mp hi with h1 | h1
      · exact ih (by omega) i h1
      · subst h1; omega

theorem exists_pos_of_listSum_pos {n : Nat} {f : Nat → Nat} (h : 1 ≤ listSum n f) :
    ∃ k, k < n ∧ 1 ≤ f k := by
  induction n with
  | zero => rw [listSum_zero] at h; omega
  | succ m ih =>
      rw [listSum_succ] at h
      by_cases hf : 1 ≤ f m
      · exact ⟨m, Nat.lt_succ_self m, hf⟩
      · have h1 : 1 ≤ listSum m f := by omega
        obtain ⟨k, hk, hfk⟩ := ih h1
        exact ⟨k, Nat.lt_succ_of_lt hk, hfk⟩

theorem le_listSum {n k : Nat} (f : Nat → Nat) (h : k < n) : f k ≤ listSum n f := by
  induction n with
  | zero => omega
  | succ m ih =>
      rw [listSum_succ]
      rcases Nat.lt_succ_iff_lt_or_eq.mp h with h1 | h1
      · exact Nat.le_trans (ih h1) (Nat.le_add_right _ _)
      · subst h1; exact Nat.le_add_left _ _

theorem listSum_erase {n k : Nat} (f : Nat → Nat) (h : k < n) :
    listSum n (fun j => if j = k then 0 else f j) + f k = listSum n f := by
  induction n with
  | zero => omega
  | succ m ih =>
      rw [listSum_succ, listSum_succ]
      rcases Nat.lt_succ_iff_lt_or_eq.mp h with h1 | h1
      · have hm : ¬ (m = k) := by omega
        simp only [hm, if_false]
        have h2 := ih h1
        omega
      · subst h1
        have h2 : listSum k (fun j => if j = k then 0 else f j) = listSum k f :=
          listSum_congr (fun i hi => by
            have h3 : ¬ (i = k) := by omega
            simp [h3])
        simp only [eq_self_iff_true, if_true]
        omega

theorem listSum_mono {n : Nat} {f g : Nat → Nat} (h : ∀ i < n, f i ≤ g i) :
    listSum n f ≤ listSum n g := by
  induction n with
  | zero => rw [listSum_zero, listSum_zero]
  | succ m ih =>
      rw [listSum_succ, listSum_succ]
      have h1 := ih (fun i hi => h i (Nat.lt_succ_of_lt hi))
      have h2 := h m (Nat.lt_succ_self m)
      omega

/-! ### Helper lemmas about the dict operations -/

theorem dlookup_dinsert_self {α : Type} (m : List (Nat × α)) (key : Nat) (v : α) :
    dlookup key (dinsert m key v) = some v := by
  induction m with
  | nil => simp [dinsert, dlookup]
  | cons hd tl ih =>
      obtain ⟨k1, v1⟩ := hd
      by_cases hk : k1 = key
      · simp [dinsert, dlookup, hk]
      · simp [dinsert, dlookup, hk, ih]

theorem dlookup_dinsert_ne {α : Type} (m : List (Nat × α)) {key k : Nat} (v : α)
    (h : k ≠ key) : dlookup key (dinsert m k v) = dlookup key m := by
  induction m with
  | nil => simp [dinsert, dlookup, h]
  | cons hd tl ih =>
      obtain ⟨k1, v1⟩ := hd
      by_cases hk : k1 = k
      · subst hk; simp [dinsert, dlookup, h]
      · by_cases hky : k1 = key <;> simp [dinsert, dlookup, hk, hky, ih, Ne.symm h]

theorem mem_dinsert {α : Type} {m : List (Nat × α)} {e : Nat × α} {key : Nat} {v : α}
    (h : e ∈ dinsert m key v) : e ∈ m ∨ e = (key, v) := by
  induction m with
  | nil => simp [dinsert] at h; exact Or.inr h
  | cons hd tl ih =>
      obtain ⟨k1, v1⟩ := hd
      by_cases hk : k1 = key
      · subst hk
        simp only [dinsert, if_pos rfl] at h
        rcases List.mem_cons.mp h with h1 | h1
        · exact Or.inr h1
        · exact Or.inl (List.mem_cons_of_mem _ h1)
      · simp only [dinsert, if_neg hk] at h
        rcases List.mem_cons.mp h with h1 | h1
        · exact Or.inl (by rw [h1]; exact List.mem_cons_self _ _)
        · rcases ih h1 with h2 | h2
          · exact Or.inl (List.mem_cons_of_mem _ h2)
          · exact Or.inr h2

theorem isSome_dlookup_dinsert {α : Type} (m : List (Nat × α)) (key k : Nat) (v : α)
    (h : (dlookup key m).isSome = true ∨ key = k) :
    (dlookup key (dinsert m k v)).isSome = true := by
  rcases h with h | h
  · by_cases hk : k = key
    · subst hk; simp [dlookup_dinsert_self]
    · rw [dlookup_dinsert_ne m v hk]; exact h
  · subst h; simp [dlookup_dinsert_self]

theorem dfold_cons {α : Type} (keyf : Nat → Nat) (valf : Nat → α)
    (m : List (Nat × α)) (j : Nat) (l : List Nat) :
    dfold keyf valf m (j :: l) = dfold keyf valf (dinsert m (keyf j) (valf j)) l := rfl

theorem dfold_append {α : Type} (keyf : Nat → Nat) (valf : Nat → α)
    (m : List (Nat × α)) (l1 l2 : List Nat) :
    dfold keyf valf m (l1 ++ l2) = dfold keyf valf (dfold keyf valf m l1) l2 := by
  simp [dfold, List.foldl_append]

theorem mem_dfold {α : Type} {keyf : Nat → Nat} {valf : Nat → α} {l : List Nat}
    {m : List (Nat × α)} {e : Nat × α} (h : e ∈ dfold keyf valf m l) :
    e ∈ m ∨ ∃ i ∈ l, e = (keyf i, valf i) := by
  induction l generalizing m with
  | nil => exact Or.inl h
  | cons j tl ih =>
      rw [dfold_cons] at h
      rcases ih h with h1 | ⟨i, hi, he⟩
      · rcases mem_dinsert h1 with h2 | h2
        · exact Or.inl h2
        · exact Or.inr ⟨j, List.mem_cons_self _ _, h2⟩
      · exact Or.inr ⟨i, List.mem_cons_of_mem _ hi, he⟩

theorem isSome_dlookup_dfold_of_isSome {α : Type} {keyf : Nat → Nat} {valf : Nat → α}
    {l : List Nat} {key : Nat} {m : List (Nat × α)}
    (h : (dlookup key m).isSome = true) :
    (dlookup key (dfold keyf valf m l)).isSome = true := by
  induction l generalizing m with
  | nil => exact h
  | cons j tl ih => exact ih (isSome_dlookup_dinsert _ _ _ _ (Or.inl h))

theorem isSome_dlookup_dfold {α : Type} {keyf : Nat → Nat} {valf : Nat → α}
    {l : List Nat} {i : Nat} (m : List (Nat × α)) (h : i ∈ l) :
    (dlookup (keyf i) (dfold keyf valf m l)).isSome = true := by
  induction l generalizing m with
  | nil => cases h
  | cons j tl ih =>
      rw [dfold_cons]
      rcases List.mem_cons.mp h with h1 | h1
      · subst h1
        exact isSome_dlookup_dfold_of_isSome (by simp [dlookup_dinsert_self])
      · exact ih _ h1

theorem dlookup_dfold_of_not_mem_keys {α : Type} {keyf : Nat → Nat} {valf : Nat → α}
    {l : List Nat} {key : Nat} (m : List (Nat × α)) (h : ∀ i ∈ l, keyf i ≠ key) :
    dlookup key (dfold keyf valf m l) = dlookup key m := by
  induction l generalizing m with
  | nil => rfl
  | cons j tl ih =>
      rw [dfold_cons, ih _ (fun i hi => h i (List.mem_cons_of_mem _ hi)),
        dlookup_dinsert_ne _ _ (h j (List.mem_cons_self _ _))]

theorem dlookup_dfold_last {α : Type} {keyf : Nat → Nat} {valf : Nat → α}
    (m : List (Nat × α)) (l1 l2 : List Nat) (j : Nat)
    (h : ∀ i ∈ l2, keyf i ≠ keyf j) :
    dlookup (keyf j) (dfold keyf valf m (l1 ++ j :: l2)) = some (valf j) := by
  rw [dfold_append, dfold_cons, dlookup_dfold_of_not_mem_keys _ h, dlookup_dinsert_self]

theorem range_split {n j : Nat} (h : j < n) :
    List.range n = List.range j ++ j :: (List.range (n - j - 1)).map (fun t => j + 1 + t) := by
  conv_lhs => rw [show n = (j + 1) + (n - j - 1) by omega]
  rw [List.range_add, List.range_succ, List.append_assoc, List.singleton_append]

theorem valuesSum_dinsert (m : List (Nat × Nat)) (key v : Nat) :
    valuesSum (dinsert m key v) ≤ valuesSum m + v := by
  induction m with
  | nil => simp [dinsert, valuesSum]
  | cons hd tl ih =>
      obtain ⟨k1, v1⟩ := hd
      by_cases hk : k1 = key
      · simp only [dinsert, if_pos hk, valuesSum, List.map_cons, List.sum_cons]
        omega
      · simp only [dinsert, if_neg hk, valuesSum, List.map_cons, List.sum_cons]
        have h2 := ih
        simp only [valuesSum] at h2
        omega

/-! ### Structural lemmas about the normalizer -/

theorem totalPages_eq (p : Params) (a : Assignment) :
    totalPages p a = listSum p.max_layouts (fun k => if a.z k then a.x k else 0) := by
  unfold totalPages usedLayouts
  generalize p.max_layouts = n
  induction n with
  | zero => rfl
  | succ m ih =>
      rw [List.range_succ, List.filter_append, List.map_append, List.sum_append,
        listSum_succ, ih]
      by_cases hz : a.z m <;> simp [hz]

theorem totalPages_le_objective (p : Params) (a : Assignment) :
    totalPages p a ≤ objective p a := by
  rw [totalPages_eq]
  exact listSum_mono (fun i _ => by by_cases hz : a.z i <;> simp [hz])

theorem valuesSum_singleLayout_le (p : Params) (a : Assignment) (k : Nat) :
    valuesSum (singleLayout p a k) ≤ listSum p.N (fun i => a.y k i) := by
  unfold singleLayout
  have main : ∀ (l : List Nat) (m : List (Nat × Nat)),
      valuesSum (l.foldl
          (fun m i => if 0 < a.y k i then dinsert m (p.names.getD i 0) (a.y k i) else m) m)
        ≤ valuesSum m + (l.map (fun i => a.y k i)).sum := by
    intro l
    induction l with
    | nil => intro m; simp
    | cons j tl ih =>
        intro m
        simp only [List.foldl_cons, List.map_cons, List.sum_cons]
        by_cases hy : 0 < a.y k j
        · simp only [if_pos hy]
          refine le_trans (ih _) ?_
          have h2 := valuesSum_dinsert m (p.names.getD j 0) (a.y k j)
          omega
        · simp only [if_neg hy]
          refine le_trans (ih _) ?_
          omega
  have h3 := main (List.range p.N) []
  simpa [valuesSum, listSum] using h3

theorem mem_demandChecks {p : Params} {a : Assignment} {e : Nat × DemandCheck}
    (h : e ∈ demandChecks p a) :
    ∃ i, i < p.N ∧ e = (p.names.getD i 0, mkCheck p a i) := by
  rcases mem_dfold h with h1 | ⟨i, hi, he⟩
  · cases h1
  · exact ⟨i, List.mem_range.mp hi, he⟩

theorem mem_layoutDistributions {p : Params} {a : Assignment} {e : Nat × List (Nat × Nat)}
    (h : e ∈ layoutDistributions p a) :
    ∃ k, k < p.max_layouts ∧ a.z k = true ∧ e = (k, singleLayout p a k) := by
  unfold layoutDistributions at h
  rcases List.mem_map.mp h with ⟨k, hk, he⟩
  unfold usedLayouts at hk
  rcases List.mem_filter.mp hk with ⟨hk1, hk2⟩
  exact ⟨k, List.mem_range.mp hk1, by simpa using hk2, he.symm⟩

/-! ### Claim theorems -/

/-- C1: for every OPTIMAL/FEASIBLE result (an assignment satisfying every
declared constraint), every entry of `demand_checks` satisfies
`printed >= required`, its `met` field is exactly the boolean
`printed >= required` (hence `true`), and every declared item `i` has an
entry under its name in the report. -/
theorem demand_coverage (p : Params) (a : Assignment) (e : Nat × DemandCheck)
    (i : Nat) (hs : Sat p a) (he : e ∈ demandChecks p a) (hi : i < p.N) :
    e.2.required ≤ (e.2.printed : Int) ∧
    e.2.met = decide (e.2.required ≤ (e.2.printed : Int)) ∧
    e.2.met = true ∧
    (dlookup (p.names.getD i 0) (demandChecks p a)).isSome = true := by
  obtain ⟨hbx, hby, hbw, hmul, hcapLe, hcapZero, hdem, hzsum, hpres⟩ := hs
  obtain ⟨j, hj, hej⟩ := mem_demandChecks he
  have hreq : e.2.required ≤ (e.2.printed : Int) := by
    rw [hej]; exact hdem j hj
  refine ⟨hreq, ?_, ?_, ?_⟩
  · rw [hej]; rfl
  · rw [hej]; exact decide_eq_true (hdem j hj)
  · unfold demandChecks
    exact @isSome_dlookup_dfold _ (fun j => p.names.getD j 0) (mkCheck p a)
      (List.range p.N) i [] (List.mem_range.mpr hi)

/-- Concrete instantiation of `demand_coverage` at `pEx`/`aEx`. -/
theorem demand_coverage_witness :
    (2 : Int) ≤ ((2 : Nat) : Int) ∧
    true = decide ((2 : Int) ≤ ((2 : Nat) : Int)) ∧
    true = true ∧
    (dlookup (pEx.names.getD 0 0) (demandChecks pEx aEx)).isSome = true :=
  demand_coverage pEx aEx (1, ⟨2, 2, true⟩) 0 (by decide) (by decide) (by decide)

/-- C4: structural presence — in every assignment satisfying the built model,
every declared item `i` has density at least 1 in some layout `k` whose usage
flag `z[k]` is true. -/
theorem structural_presence (p : Params) (a : Assignment) (i : Nat)
    (hs : Sat p a) (hi : i < p.N) :
    ∃ k, k < p.max_layouts ∧ 1 ≤ a.y k i ∧ a.z k = true := by
  obtain ⟨hbx, hby, hbw, hmul, hcapLe, hcapZero, hdem, hzsum, hpres⟩ := hs
  obtain ⟨k, hk, hyk⟩ := exists_pos_of_listSum_pos (hpres i hi)
  refine ⟨k, hk, hyk, ?_⟩
  cases hzk : a.z k with
  | false =>
      have h0 := hcapZero k hk hzk
      have h1 := eq_zero_of_listSum_eq_zero h0 i hi
      omega
  | true => rfl

/-- Concrete instantiation of `structural_presence` at `pEx`/`aEx`. -/
theorem structural_presence_witness :
    ∃ k, k < pEx.max_layouts ∧ 1 ≤ aEx.y k 0 ∧ aEx.z k = true :=
  structural_presence pEx aEx 0 (by decide) (by decide)

/-- C5: capacity respect — in every assignment satisfying the built model,
every layout's densities sum to at most the capacity when the usage flag is
true and to exactly 0 when it is false; consequently in the returned report
every used layout's `layout_distributions` entry has values summing to at
most the capacity. -/
theorem capacity_respect (p : Params) (a : Assignment) (k : Nat)
    (e : Nat × List (Nat × Nat)) (hs : Sat p a) (hk : k < p.max_layouts)
    (he : e ∈ layoutDistributions p a) :
    (a.z k = true → listSum p.N (fun i => a.y k i) ≤ p.layout_capacity) ∧
    (a.z k = false → listSum p.N (fun i => a.y k i) = 0) ∧
    valuesSum e.2 ≤ p.layout_capacity := by
  obtain ⟨hbx, hby, hbw, hmul, hcapLe, hcapZero, hdem, hzsum, hpres⟩ := hs
  refine ⟨hcapLe k hk, hcapZero k hk, ?_⟩
  obtain ⟨k1, hk1, hz1, he1⟩ := mem_layoutDistributions he
  rw [he1]
  exact le_trans (valuesSum_singleLayout_le p a k1) (hcapLe k1 hk1 hz1)

/-- Concrete instantiation of `capacity_respect` at `pEx`/`aEx`. -/
theorem capacity_respect_witness :
    (aEx.z 0 = true → listSum pEx.N (fun i => aEx.y 0 i) ≤ pEx.layout_capacity) ∧
    (aEx.z 0 = false → listSum pEx.N (fun i => aEx.y 0 i) = 0) ∧
    valuesSum [(1, 1), (2, 1)] ≤ pEx.layout_capacity :=
  capacity_respect pEx aEx 0 (0, [(1, 1), (2, 1)]) (by decide) (by decide) (by decide)

/-- C6: the multiplicative link — in every assignment satisfying the built
model, `w[k][i]` equals the product `x[k] * y[k][i]` exactly and lies within
the declared domain `[0, max_x_bound * layout_capacity]`; that domain is
consistent with the product of the factors' own domains. -/
theorem multiplication_link (p : Params) (a : Assignment) (k i : Nat)
    (hs : Sat p a) (hk : k < p.max_layouts) (hi : i < p.N) :
    a.w k i = a.x k * a.y k i ∧
    a.w k i ≤ p.max_x_bound * p.layout_capacity ∧
    a.x k * a.y k i ≤ p.max_x_bound * p.layout_capacity := by
  obtain ⟨hbx, hby, hbw, hmul, hcapLe, hcapZero, hdem, hzsum, hpres⟩ := hs
  exact ⟨hmul k hk i hi, hbw k hk i hi, Nat.mul_le_mul (hbx k hk) (hby k hk i hi)⟩

/-- Concrete instantiation of `multiplication_link` at `pEx`/`aEx`. -/
theorem multiplication_link_witness :
    aEx.w 0 0 = aEx.x 0 * aEx.y 0 0 ∧
    aEx.w 0 0 ≤ pEx.max_x_bound * pEx.layout_capacity ∧
    aEx.x 0 * aEx.y 0 0 ≤ pEx.max_x_bound * pEx.layout_capacity :=
  multiplication_link pEx aEx 0 0 (by decide) (by decide) (by decide)

/-- C7: fail-closed reporting — for every terminal status other than
OPTIMAL/FEASIBLE, the returned result is the `noSolution` shape holding only
the status label and the fixed explanatory message; no structural field
exists in that shape. -/
theorem failure_path (p : Params) (st : Status) (a : Assignment)
    (h : isSuccess st = false) :
    normalize p st a =
      SolveResult.noSolution st.name
        "No feasible solution found or time limit reached." := by
  simp [normalize, h]

/-- Concrete instantiation of `failure_path` at status INFEASIBLE. -/
theorem failure_path_witness :
    normalize pEx Status.INFEASIBLE aEx =
      SolveResult.noSolution "INFEASIBLE"
        "No feasible solution found or time limit reached." :=
  failure_path pEx Status.INFEASIBLE aEx (by decide)

/-! ### C2: unused-template emptiness -/

/-- One sticker of demand 1, two layouts of capacity 1, print bound 100. -/
def p1 : Params := ⟨[(1, 1)], 2, 1, 100⟩

/-- A constraint-satisfying assignment for `p1` in which the unused layout 1
has print count 5.  Nothing in the model forbids this, so it is a legitimate
FEASIBLE return. -/
def bFeas : Assignment where
  x := fun k => if k = 0 then 1 else 5
  z := fun k => k == 0
  y := fun k i => if k == 0 && i == 0 then 1 else 0
  w := fun k i => if k == 0 && i == 0 then 1 else 0

/-- C2 counterexample: `bFeas` satisfies every declared constraint (so the
solver may return it with status FEASIBLE), layout 1 is not in
`used_layouts` and has all densities 0, yet its print count `x[1]` is 5,
not 0: no constraint ties `x[k]` to `z[k]`. -/
theorem unused_emptiness_cex :
    Sat p1 bFeas ∧ usedLayouts p1 bFeas = [0] ∧ bFeas.z 1 = false ∧
    bFeas.x 1 = 5 ∧ bFeas.y 1 0 = 0 := by decide

/-- C2 (amended): for every constraint-satisfying assignment and every layout
`k` whose usage flag is false, every density `y[k][i]` and total `w[k][i]`
is 0; the print count `x[k]` is additionally 0 whenever the assignment is
objective-minimal (status OPTIMAL), but a merely feasible assignment may
leave `x[k]` nonzero. -/
theorem unused_emptiness (p : Params) (a : Assignment) (k i : Nat)
    (hs : Sat p a) (hk : k < p.max_layouts) (hz : a.z k = false) (hi : i < p.N) :
    a.y k i = 0 ∧ a.w k i = 0 ∧ (IsOptimal p a → a.x k = 0) := by
  obtain ⟨hbx, hby, hbw, hmul, hcapLe, hcapZero, hdem, hzsum, hpres⟩ := hs
  have hy0 : ∀ j < p.N, a.y k j = 0 := eq_zero_of_listSum_eq_zero (hcapZero k hk hz)
  have hw0 : ∀ j < p.N, a.w k j = 0 := fun j hj => by
    rw [hmul k hk j hj, hy0 j hj, Nat.mul_zero]
  refine ⟨hy0 i hi, hw0 i hi, ?_⟩
  intro hopt
  by_contra hx
  have hxpos : 1 ≤ a.x k := Nat.one_le_iff_ne_zero.mpr hx
  have hsat2 : Sat p (Assignment.mk (fun j => if j = k then 0 else a.x j) a.z a.y
      (fun j i2 => if j = k then 0 else a.w j i2)) := by
    refine ⟨?_, hby, ?_, ?_, hcapLe, hcapZero, ?_, hzsum, hpres⟩
    · intro j hj
      by_cases hjk : j = k
      · simp [hjk]
      · simpa [hjk] using hbx j hj
    · intro j hj i2 hi2
      by_cases hjk : j = k
      · simp [hjk]
      · simpa [hjk] using hbw j hj i2 hi2
    · intro j hj i2 hi2
      by_cases hjk : j = k
      · subst hjk
        simp [hy0 i2 hi2]
      · simpa [hjk] using hmul j hj i2 hi2
    · intro i2 hi2
      have hw02 : a.w k i2 = 0 := hw0 i2 hi2
      have h4 : listSum p.max_layouts (fun j => if j = k then 0 else a.w j i2) + a.w k i2
          = listSum p.max_layouts (fun j => a.w j i2) :=
        listSum_erase (fun j => a.w j i2) hk
      have heq : listSum p.max_layouts (fun j => if j = k then 0 else a.w j i2)
          = listSum p.max_layouts (fun j => a.w j i2) := by omega
      show p.demands.getD i2 0
          ≤ (listSum p.max_layouts (fun j => if j = k then 0 else a.w j i2) : Int)
      rw [heq]
      exact hdem i2 hi2
  have hle := hopt.2 _ hsat2
  have hobj : objective p (Assignment.mk (fun j => if j = k then 0 else a.x j) a.z a.y
      (fun j i2 => if j = k then 0 else a.w j i2)) + a.x k = objective p a :=
    listSum_erase a.x hk
  omega

/-- Concrete instantiation of `unused_emptiness` at `pEx`/`aEx`, layout 1. -/
theorem unused_emptiness_witness :
    aEx.y 1 0 = 0 ∧ aEx.w 1 0 = 0 ∧ (IsOptimal pEx aEx → aEx.x 1 = 0) :=
  unused_emptiness pEx aEx 1 0 (by decide) (by decide) (by decide) (by decide)

/-! ### C3: input validation -/

/-- The invalid input of C3: a sticker with negative demand, with the
default-like sizing parameters of the program. -/
def pNeg : Params := ⟨[(7, -1)], 5, 48, 100000⟩

/-- An assignment for `pNeg`: layout 0 carries the sticker once and is
printed 0 times. -/
def aNeg : Assignment where
  x := fun _ => 0
  z := fun k => k == 0
  y := fun k i => if k == 0 && i == 0 then 1 else 0
  w := fun _ _ => 0

/-- C3: the code performs no input validation.  With a negative demand the
model is built as usual, is satisfiable (even trivially optimal), and the
solve returns an OPTIMAL success-shaped report instead of failing fast
before model construction. -/
theorem no_input_validation :
    IsOptimal pNeg aNeg ∧ (normalize pNeg Status.OPTIMAL aNeg).isOk = true := by
  refine ⟨⟨by decide, fun b hb => ?_⟩, by decide⟩
  rw [show objective pNeg aNeg = 0 from by decide]
  exact Nat.zero_le _

/-! ### C8: Scenario A -/

/-- Scenario A input: 2 stickers with demands 10 and 5, one layout of
capacity 2, non-binding print bound. -/
def p8 : Params := ⟨[(1, 10), (2, 5)], 1, 2, 100000⟩

/-- The unique optimal assignment of Scenario A: one layout with density 1
for each sticker, printed 10 times. -/
def aStar : Assignment where
  x := fun k => if k = 0 then 10 else 0
  z := fun k => k == 0
  y := fun k i => if k == 0 && (i == 0 || i == 1) then 1 else 0
  w := fun k i => if k == 0 && (i == 0 || i == 1) then 10 else 0

theorem listSum_one (f : Nat → Nat) : listSum 1 f = f 0 := by
  rw [listSum_succ, listSum_zero, Nat.zero_add]

theorem listSum_two (f : Nat → Nat) : listSum 2 f = f 0 + f 1 := by
  rw [listSum_succ, listSum_one]

theorem p8_shape (b : Assignment) (hs : Sat p8 b) :
    b.y 0 0 = 1 ∧ b.y 0 1 = 1 ∧ b.z 0 = true ∧ 10 ≤ b.x 0 := by
  obtain ⟨hbx, hby, hbw, hmul, hcapLe, hcapZero, hdem, hzsum, hpres⟩ := hs
  have hL : (0:Nat) < p8.max_layouts := by decide
  have hN0 : (0:Nat) < p8.N := by decide
  have hN1 : (1:Nat) < p8.N := by decide
  have hp0 := hpres 0 hN0
  have hp1 := hpres 1 hN1
  rw [show listSum p8.max_layouts (fun k => b.y k 0) = b.y 0 0 from listSum_one _] at hp0
  rw [show listSum p8.max_layouts (fun k => b.y k 1) = b.y 0 1 from listSum_one _] at hp1
  have hz0 : b.z 0 = true := by
    cases hz : b.z 0 with
    | true => rfl
    | false =>
        have h0 := hcapZero 0 hL hz
        rw [show listSum p8.N (fun i => b.y 0 i) = b.y 0 0 + b.y 0 1
          from listSum_two _] at h0
        omega
  have hcap : b.y 0 0 + b.y 0 1 ≤ 2 := by
    have h1 := hcapLe 0 hL hz0
    rw [show listSum p8.N (fun i => b.y 0 i) = b.y 0 0 + b.y 0 1
      from listSum_two _] at h1
    exact h1
  have hy00 : b.y 0 0 = 1 := by omega
  have hy01 : b.y 0 1 = 1 := by omega
  have hd0 := hdem 0 hN0
  rw [show printedAt p8 b 0 = b.w 0 0 from listSum_one _] at hd0
  have hw00 : b.w 0 0 = b.x 0 := by rw [hmul 0 hL 0 hN0, hy00, Nat.mul_one]
  rw [show p8.demands.getD 0 0 = 10 from rfl, hw00] at hd0
  exact ⟨hy00, hy01, hz0, by omega⟩

theorem p8_obj_lb (b : Assignment) (hs : Sat p8 b) : 10 ≤ objective p8 b := by
  obtain ⟨-, -, -, hx⟩ := p8_shape b hs
  rw [show objective p8 b = b.x 0 from listSum_one _]
  exact hx

/-- C8: Scenario A — every OPTIMAL return for `p8` has one used layout with
density 1 for each of the two stickers, printed 10 times, so the report has
`total_pages = 10`, sticker 1 covered exactly (printed 10, required 10) and
sticker 2 overshooting (printed 10, required 5). -/
theorem scenario_a (a : Assignment) (hopt : IsOptimal p8 a) :
    a.x 0 = 10 ∧ a.y 0 0 = 1 ∧ a.y 0 1 = 1 ∧ a.z 0 = true ∧
    objective p8 a = 10 ∧ usedLayouts p8 a = [0] ∧ totalPages p8 a = 10 ∧
    demandChecks p8 a = [(1, ⟨10, 10, true⟩), (2, ⟨10, 5, true⟩)] ∧
    singleLayout p8 a 0 = [(1, 1), (2, 1)] := by
  obtain ⟨hs, hmin⟩ := hopt
  obtain ⟨hy00, hy01, hz0, hx10⟩ := p8_shape a hs
  obtain ⟨hbx, hby, hbw, hmul, hcapLe, hcapZero, hdem, hzsum, hpres⟩ := hs
  have hL : (0:Nat) < p8.max_layouts := by decide
  have hN0 : (0:Nat) < p8.N := by decide
  have hN1 : (1:Nat) < p8.N := by decide
  have hub := hmin aStar (by decide)
  rw [show objective p8 aStar = 10 from by decide] at hub
  have hobj : objective p8 a = a.x 0 := listSum_one _
  have hx0 : a.x 0 = 10 := by omega
  have hw00 : a.w 0 0 = 10 := by rw [hmul 0 hL 0 hN0, hx0, hy00]
  have hw01 : a.w 0 1 = 10 := by rw [hmul 0 hL 1 hN1, hx0, hy01]
  have hpr0 : printedAt p8 a 0 = 10 := by
    rw [show printedAt p8 a 0 = a.w 0 0 from listSum_one _, hw00]
  have hpr1 : printedAt p8 a 1 = 10 := by
    rw [show printedAt p8 a 1 = a.w 0 1 from listSum_one _, hw01]
  have hused : usedLayouts p8 a = [0] := by
    unfold usedLayouts
    rw [show List.range p8.max_layouts = [0] from by decide]
    simp [List.filter, hz0]
  refine ⟨hx0, hy00, hy01, hz0, by omega, hused, ?_, ?_, ?_⟩
  · unfold totalPages
    rw [hused]
    simp [hx0]
  · have h0 : mkCheck p8 a 0 = ⟨10, 10, true⟩ := by
      unfold mkCheck
      rw [hpr0]
      rfl
    have h1 : mkCheck p8 a 1 = ⟨10, 5, true⟩ := by
      unfold mkCheck
      rw [hpr1]
      rfl
    unfold demandChecks dfold
    rw [show List.range p8.N = [0, 1] from by decide]
    simp only [List.foldl_cons, List.foldl_nil]
    rw [h0, h1]
    decide
  · unfold singleLayout
    rw [show List.range p8.N = [0, 1] from by decide]
    simp only [List.foldl_cons, List.foldl_nil]
    rw [hy00, hy01]
    decide

/-- Concrete instantiation of `scenario_a` at the optimal assignment
`aStar`. -/
theorem scenario_a_witness :
    aStar.x 0 = 10 ∧ aStar.y 0 0 = 1 ∧ aStar.y 0 1 = 1 ∧ aStar.z 0 = true ∧
    objective p8 aStar = 10 ∧ usedLayouts p8 aStar = [0] ∧
    totalPages p8 aStar = 10 ∧
    demandChecks p8 aStar = [(1, ⟨10, 10, true⟩), (2, ⟨10, 5, true⟩)] ∧
    singleLayout p8 aStar 0 = [(1, 1), (2, 1)] :=
  scenario_a aStar ⟨by decide, fun b hb => by
    rw [show objective p8 aStar = 10 from by decide]
    exact p8_obj_lb b hb⟩

/-! ### C9: the empty instance -/

/-- The empty sticker list with the program's default-like parameters. -/
def pEmpty : Params := ⟨[], 5, 48, 100000⟩

/-- An optimal assignment for the empty instance that marks layout 0 used:
with no stickers, nothing constrains the usage flags. -/
def cEx : Assignment where
  x := fun _ => 0
  z := fun k => k == 0
  y := fun _ _ => 0
  w := fun _ _ => 0

/-- An optimal assignment for the empty instance with no used layout. -/
def cNone : Assignment where
  x := fun _ => 0
  z := fun _ => false
  y := fun _ _ => 0
  w := fun _ _ => 0

/-- C9 counterexample: the solver may return the optimal assignment `cEx`
for the empty instance, and its report has `used_layouts = [0]`, not the
empty list the claim asserts: the usage flags are unconstrained when there
are no items. -/
theorem empty_input_cex :
    IsOptimal pEmpty cEx ∧ usedLayouts pEmpty cEx ≠ [] := by
  refine ⟨⟨by decide, fun b hb => ?_⟩, by decide⟩
  rw [show objective pEmpty cEx = 0 from by decide]
  exact Nat.zero_le _

/-- C9 (amended): the empty instance is trivially solvable, not an error:
every OPTIMAL return has `total_pages = 0`, an empty `demand_checks` report
and an empty contents map for every listed layout, and some OPTIMAL return
has an empty `used_layouts` list — but `used_layouts` itself may be
nonempty, since nothing constrains the usage flags. -/
theorem empty_input (a : Assignment) (hopt : IsOptimal pEmpty a) :
    totalPages pEmpty a = 0 ∧ demandChecks pEmpty a = [] ∧
    (∀ e ∈ layoutDistributions pEmpty a, e.2 = ([] : List (Nat × Nat))) ∧
    (∃ b, IsOptimal pEmpty b ∧ usedLayouts pEmpty b = []) := by
  have hobj0 : objective pEmpty a = 0 := by
    have h1 := hopt.2 cNone (by decide)
    rw [show objective pEmpty cNone = 0 from by decide] at h1
    omega
  have hmin : ∀ b, Sat pEmpty b → objective pEmpty cNone ≤ objective pEmpty b := by
    intro b hb
    rw [show objective pEmpty cNone = 0 from by decide]
    exact Nat.zero_le _
  refine ⟨?_, rfl, ?_, ⟨cNone, ⟨by decide, hmin⟩, by decide⟩⟩
  · have h2 := totalPages_le_objective pEmpty a
    omega
  · intro e he
    obtain ⟨k, hk, hz, hek⟩ := mem_layoutDistributions he
    rw [hek]
    rfl

/-- Concrete instantiation of `empty_input` at `cEx`. -/
theorem empty_input_witness :
    totalPages pEmpty cEx = 0 ∧ demandChecks pEmpty cEx = [] ∧
    (∀ e ∈ layoutDistributions pEmpty cEx, e.2 = ([] : List (Nat × Nat))) ∧
    (∃ b, IsOptimal pEmpty b ∧ usedLayouts pEmpty b = []) :=
  empty_input cEx ⟨by decide, fun b hb => by
    rw [show objective pEmpty cEx = 0 from by decide]
    exact Nat.zero_le _⟩

/-! ### C10: duplicate sticker names -/

/-- An input whose two stickers share the name 1, with different demands. -/
def pDup : Params := ⟨[(1, 3), (1, 5)], 1, 4, 100⟩

/-- A constraint-satisfying assignment for `pDup`. -/
def aDup : Assignment where
  x := fun k => if k = 0 then 5 else 0
  z := fun k => k == 0
  y := fun k i => if k == 0 && (i == 0 || i == 1) then 1 else 0
  w := fun k i => if k == 0 && (i == 0 || i == 1) then 5 else 0

theorem dlookup_slfoldl_of_not_mem {p : Params} {a : Assignment} {k key : Nat}
    (l : List Nat) (m : List (Nat × Nat))
    (h : ∀ i ∈ l, 0 < a.y k i → p.names.getD i 0 ≠ key) :
    dlookup key (l.foldl
        (fun m i => if 0 < a.y k i then dinsert m (p.names.getD i 0) (a.y k i) else m) m)
      = dlookup key m := by
  induction l generalizing m with
  | nil => rfl
  | cons j tl ih =>
      simp only [List.foldl_cons]
      by_cases hy : 0 < a.y k j
      · rw [if_pos hy, ih _ (fun i hi => h i (List.mem_cons_of_mem _ hi))]
        exact dlookup_dinsert_ne _ _ (h j (List.mem_cons_self _ _) hy)
      · rw [if_neg hy]
        exact ih _ (fun i hi => h i (List.mem_cons_of_mem _ hi))

theorem dlookup_singleLayout_last (p : Params) (a : Assignment) (k j : Nat)
    (hj : j < p.N) (hy : 0 < a.y k j)
    (hlast : ∀ i < p.N, j < i → 0 < a.y k i → p.names.getD i 0 ≠ p.names.getD j 0) :
    dlookup (p.names.getD j 0) (singleLayout p a k) = some (a.y k j) := by
  unfold singleLayout
  rw [range_split hj, List.foldl_append]
  simp only [List.foldl_cons]
  rw [if_pos hy]
  have h2 : ∀ i ∈ (List.range (p.N - j - 1)).map (fun t => j + 1 + t),
      0 < a.y k i → p.names.getD i 0 ≠ p.names.getD j 0 := by
    intro i hi hyi
    rcases List.mem_map.mp hi with ⟨t, ht, hti⟩
    have ht2 := List.mem_range.mp ht
    exact hlast i (by omega) (by omega) hyi
  rw [dlookup_slfoldl_of_not_mem _ _ h2, dlookup_dinsert_self]

/-- C10: both report dicts are keyed by sticker name with later occurrences
overwriting earlier ones.  For every index `j` that is the last occurrence
of its name, the `demand_checks` entry under that name is exactly the record
computed for `j`, and whenever `j` has positive density in layout `k`, the
`single_layout` map of `k` holds `y[k][j]` under that name; meanwhile every
declared index keeps its own demand constraint in the model; and on the
concrete duplicate-name input `pDup` both the demand report and the used
layout's contents map have fewer entries than declared stickers. -/
theorem duplicate_name_collapse (p : Params) (a : Assignment) (j k : Nat)
    (hs : Sat p a) (hj : j < p.N)
    (hlast : ∀ i < p.N, j < i → p.names.getD i 0 ≠ p.names.getD j 0)
    (hyk : 0 < a.y k j) :
    dlookup (p.names.getD j 0) (demandChecks p a) = some (mkCheck p a j) ∧
    dlookup (p.names.getD j 0) (singleLayout p a k) = some (a.y k j) ∧
    (∀ i < p.N, p.demands.getD i 0 ≤ (printedAt p a i : Int)) ∧
    (demandChecks pDup aDup).length < pDup.N ∧
    (singleLayout pDup aDup 0).length < pDup.N := by
  refine ⟨?_, ?_, hs.2.2.2.2.2.2.1, by decide, by decide⟩
  · unfold demandChecks
    rw [range_split hj]
    refine @dlookup_dfold_last _ (fun i => p.names.getD i 0) (mkCheck p a) []
      (List.range j) ((List.range (p.N - j - 1)).map (fun t => j + 1 + t)) j ?_
    intro i hi
    rcases List.mem_map.mp hi with ⟨t, ht, hti⟩
    have ht2 := List.mem_range.mp ht
    have hiN : i < p.N := by omega
    exact hlast i hiN (by omega)
  · exact dlookup_singleLayout_last p a k j hj hyk
      (fun i hi1 hi2 _ => hlast i hi1 hi2)

/-- Concrete instantiation of `duplicate_name_collapse` at `pDup`/`aDup`,
with `j = 1` the last occurrence of the duplicated name and `k = 0` the
used layout. -/
theorem duplicate_name_collapse_witness :
    dlookup (pDup.names.getD 1 0) (demandChecks pDup aDup)
        = some (mkCheck pDup aDup 1) ∧
    dlookup (pDup.names.getD 1 0) (singleLayout pDup aDup 0)
        = some (aDup.y 0 1) ∧
    (∀ i < pDup.N, pDup.demands.getD i 0 ≤ (printedAt pDup aDup i : Int)) ∧
    (demandChecks pDup aDup).length < pDup.N ∧
    (singleLayout pDup aDup 0).length < pDup.N :=
  duplicate_name_collapse pDup aDup 1 0 (by decide) (by decide) (by decide) (by decide)

end StickersLayout
